import Mathlib

/-!
Verification of the patent-disclosure backend (`src/backend/app`): a shallow
embedding of the disclosure lifecycle — docket-number formatting
(`database.py`), the extraction pipeline (`services/extractor.py`,
`services/pdf_processor.py`), the upload / update / export routes
(`routers/disclosures.py`) — together with theorems about the embedded code.

Python strings are embedded as `List Char`; Python `None` as `Option`;
the relational store as an explicit record of tables with transactional
rollback made explicit in the upload operation.
-/

namespace Disclosures

/-- Python strings, embedded as lists of characters. -/
abbrev PyStr := List Char

/-- Shorthand turning a Lean string literal into an embedded Python string. -/
def pyOf (s : String) : PyStr := s.toList

/-- Python `str.lstrip()` (default whitespace). -/
def pyStripLeft (s : PyStr) : PyStr := s.dropWhile Char.isWhitespace

/-- Python `str.rstrip()` (default whitespace). -/
def pyStripRight (s : PyStr) : PyStr :=
  (s.reverse.dropWhile Char.isWhitespace).reverse

/-- Python `str.strip()` (default whitespace): strip both ends. -/
def pyStrip (s : PyStr) : PyStr := pyStripRight (pyStripLeft s)

/-- Python `s.startswith(p)`. -/
def pyStartswith (p s : PyStr) : Bool := p.isPrefixOf s

/-- Python `s.endswith(p)`. -/
def pyEndswith (p s : PyStr) : Bool := p.reverse.isPrefixOf s.reverse

/-- Python `s[:-n]` for `n ≤ len(s)`: drop the last `n` characters. -/
def pyDropEnd (n : Nat) (s : PyStr) : PyStr := (s.reverse.drop n).reverse

/-- The character for one decimal digit. -/
def digitChar (d : Nat) : Char :=
  match d with
  | 0 => '0'
  | 1 => '1'
  | 2 => '2'
  | 3 => '3'
  | 4 => '4'
  | 5 => '5'
  | 6 => '6'
  | 7 => '7'
  | 8 => '8'
  | 9 => '9'
  | _ => '*'

/-- Decimal digit characters of `n`, most significant first — the embedding
of Python's decimal rendering of a non-negative integer (`f"{n:d}"`). -/
def natToDigits (n : Nat) : List Char :=
  if h : n < 10 then [digitChar n]
  else natToDigits (n / 10) ++ [digitChar (n % 10)]
  decreasing_by
    have h10 : 10 ≤ n := Nat.le_of_not_lt h
    exact Nat.div_lt_self (Nat.lt_of_lt_of_le (by omega) h10) (by omega)

/-- Decode a digit string back to the number it denotes (left fold,
`acc * 10 + digit`). Used to state that the docket format loses no
information (no wraparound). -/
def digitsVal (ds : List Char) : Nat :=
  ds.foldl (fun acc c => acc * 10 + (c.toNat - 48)) 0

/-- Python `f"{n:04d}"` for a non-negative `n`: the decimal rendering,
zero-padded on the left to at least four characters; wider values are
rendered unchanged. -/
def pyFormat04 (n : Nat) : PyStr :=
  let ds := natToDigits n
  List.replicate (4 - ds.length) '0' ++ ds

/-- `database.get_next_docket_number`, given the sequence value `n` issued
by the relational store's `docket_seq`: returns `f"IDF-{n:04d}"`.
The sequence itself (`SELECT nextval('docket_seq')`) lives in the database
schema; its issued values are modelled as the natural number `n`. -/
def get_next_docket_number (n : Nat) : PyStr :=
  pyOf "IDF-" ++ pyFormat04 n

/-! ### Digit lemmas -/

/-! ### Whitespace-stripping lemmas -/

/-! ### `services/extractor.py`: structured-extraction pipeline -/

/-- The characters of the triple-backtick fence marker. -/
def fence3 : PyStr := ['`', '`', '`']

/-- The characters of a fence marker tagged `json`. -/
def fenceJson : PyStr := ['`', '`', '`', 'j', 's', 'o', 'n']

/-- The markdown-fence cleanup performed on the collaborator's raw response
in `extract_disclosure_info` before JSON parsing:
strip; drop a leading tagged fence (7 chars) if present; drop a leading
untagged fence (3 chars) if present; drop a trailing fence (3 chars) if
present; strip again. -/
def stripFences (content : PyStr) : PyStr :=
  let c0 := pyStrip content
  let c1 := if pyStartswith fenceJson c0 then c0.drop 7 else c0
  let c2 := if pyStartswith fence3 c1 then c1.drop 3 else c1
  let c3 := if pyEndswith fence3 c2 then pyDropEnd 3 c2 else c2
  pyStrip c3

/-- A JSON value in one of the two shapes the extractor's normalization
handles for the three text fields: a string, or a list of strings. -/
inductive JVal
  | jstr (s : PyStr)
  | jlist (xs : List PyStr)
deriving DecidableEq, Repr

/-- One element of the collaborator's `inventors` array: a record with an
optional `name` and optional `email` entry (`inv.get("name", "Unknown")`
and `inv.get("email")` read it later, in the upload route). -/
structure RawInventor where
  name : Option PyStr
  email : Option PyStr
deriving DecidableEq, Repr

/-- A parsed JSON object from the collaborator, projected onto the keys the
code reads: the three text fields (absent key = `none`) and the `inventors`
array (`none` when absent or not a list). -/
structure RawData where
  title : Option JVal
  description : Option JVal
  key_differences : Option JVal
  inventors : Option (List RawInventor)
deriving DecidableEq, Repr

/-- Python falsiness of an optional JSON field, as used by
`if field not in data or not data[field]`: absent, the empty string and the
empty list are falsy. -/
def jfalsy : Option JVal → Bool
  | none => true
  | some (.jstr s) => s.isEmpty
  | some (.jlist xs) => xs.isEmpty

/-- The bullet marker of the normalization step (`f"• {item}"`). -/
def bulletMarker : PyStr := ['•', ' ']

/-- `"\n".join(f"• {item}" for item in xs)`. -/
def joinBullets (xs : List PyStr) : PyStr :=
  List.intercalate ['\n'] (xs.map (fun x => bulletMarker ++ x))

/-- Normalization of one text field: a string passes through, a list of
strings is joined with bullet markers. -/
def normalizeJVal : JVal → PyStr
  | .jstr s => s
  | .jlist xs => joinBullets xs

/-- The failure modes of `extract_disclosure_info` (each a `ValueError` in
the source; the spec's names: `MalformedExtraction` for a JSON parse
failure, `IncompleteExtraction` for a missing required field). -/
inductive ExtractErr
  | noApiKey
  | emptyResponse
  | malformedJson
  | missingField (f : String)
deriving DecidableEq, Repr

/-- The validated, normalized extraction result. -/
structure Extracted where
  title : PyStr
  description : PyStr
  key_differences : PyStr
  inventors : List RawInventor
deriving DecidableEq, Repr

/-- `extract_disclosure_info`, shallowly embedded.  The language-model call
is external; its observable outcome is the optional response `content`
(`None` and the empty string are both rejected as an empty response).  The
external `json.loads` is abstracted as `jparse`, applied — exactly as in the
source — to the fence-stripped content; `none` models a
`json.JSONDecodeError`.  The remaining validation and normalization mirror
the source line by line: required fields checked for presence/truthiness in
order, list-valued text fields joined with bullet markers, `inventors`
defaulted to the empty list when absent or not a list. -/
def extract_disclosure_info (apiKey : Bool) (jparse : PyStr → Option RawData)
    (content : Option PyStr) : Except ExtractErr Extracted :=
  if apiKey = false then .error .noApiKey
  else
    match content with
    | none => .error .emptyResponse
    | some content =>
      if content.isEmpty then .error .emptyResponse
      else
        match jparse (stripFences content) with
        | none => .error .malformedJson
        | some data =>
          if jfalsy data.title then .error (.missingField "title")
          else if jfalsy data.description then .error (.missingField "description")
          else if jfalsy data.key_differences then .error (.missingField "key_differences")
          else .ok
            { title := normalizeJVal (data.title.getD (.jstr []))
              description := normalizeJVal (data.description.getD (.jstr []))
              key_differences := normalizeJVal (data.key_differences.getD (.jstr []))
              inventors := data.inventors.getD [] }

/-- A collaborator response wrapped in a tagged markdown code fence:
` ```json\n<s>\n``` `. -/
def fenceWrap (s : PyStr) : PyStr := fenceJson ++ '\n' :: s ++ '\n' :: fence3

/-! ### `services/pdf_processor.py` -/

/-- `extract_text_from_pdf`, given the page texts that the external PDF
library yields for a parseable document: keep the pages whose text is
non-blank after stripping, joined by blank lines.  An unparseable byte
stream (`fitz.open` raising) is modelled upstream as an `Except.error`. -/
def extract_text_from_pdf (pages : List PyStr) : PyStr :=
  List.intercalate ['\n', '\n'] (pages.filter (fun p => !(pyStrip p).isEmpty))

/-! ### `services/storage.py` -/

/-- The object key `upload_pdf` derives and returns:
`f"disclosures/{disclosure_id}/{filename}"` (the disclosure id rendered in
decimal for the `Nat`-modelled id). The S3 put itself is external; its
success or failure is a fault-model flag at the call site. -/
def upload_pdf_object_key (did : Nat) (filename : PyStr) : PyStr :=
  pyOf "disclosures/" ++ natToDigits did ++ '/' :: filename

/-! ### The relational store -/

/-- Modelled from the spec: the SQL schema is not under `src/`; §3 declares
`status`: "initial value `pending`", which the schema implements as the
column default used by the insert in `upload_disclosure`. -/
def defaultStatus : PyStr := pyOf "pending"

/-- A row of the `disclosures` table, as selected by the routes.
Timestamps are modelled as abstract clock values (`Nat`). -/
structure DisclosureRow where
  id : Nat
  docket_number : PyStr
  title : PyStr
  description : PyStr
  key_differences : PyStr
  status : PyStr
  review_notes : Option PyStr
  original_filename : Option PyStr
  pdf_object_key : Option PyStr
  created_at : Nat
  updated_at : Nat
deriving DecidableEq, Repr

/-- A row of the `inventors` table. -/
structure InventorRow where
  id : Nat
  disclosure_id : Nat
  name : PyStr
  email : Option PyStr
  created_at : Nat
deriving DecidableEq, Repr

/-- A row of the `status_history` table. -/
structure StatusHistoryRow where
  id : Nat
  disclosure_id : Nat
  status : PyStr
  changed_at : Nat
deriving DecidableEq, Repr

/-- The relational store.  Modelled from the spec where the schema is
missing from `src/`: `seq` is the durable `docket_seq` sequence value,
`nextId` generates the opaque unique row ids the schema assigns on insert,
and `now` is the clock behind the `created_at`/`updated_at`/`NOW()`
defaults (constant within one request). -/
structure DbState where
  seq : Nat
  nextId : Nat
  now : Nat
  disclosures : List DisclosureRow
  inventors : List InventorRow
  history : List StatusHistoryRow
deriving DecidableEq, Repr

/-- Observable events of the upload operation, in execution order. -/
inductive Ev
  | seqAdvance
  | beginTxn
  | insertDisclosure
  | blobPut (ok : Bool)
  | setPdfKey
  | insertInventor (i : Nat)
  | insertHistory
  | commit
  | rollback
deriving DecidableEq, Repr

/-- Fault model for the upload operation: whether the external blob write
succeeds, and which relational inserts inside the transaction fail. -/
structure UploadFault where
  blobOk : Bool
  failDisclosureInsert : Bool
  failInventorInsert : Nat → Bool
  failHistoryInsert : Bool

/-- The fault-free execution. -/
def noFault : UploadFault :=
  { blobOk := true, failDisclosureInsert := false,
    failInventorInsert := fun _ => false, failHistoryInsert := false }

/-- Failure modes of the upload route (`HTTPException`s and the uncaught
relational failure that aborts the transaction). -/
inductive UploadErr
  | notPdf
  | readFailed
  | invalidPdf (msg : PyStr)
  | insufficientText
  | extractFailed (e : ExtractErr)
  | dbFailure
deriving DecidableEq, Repr

/-- The inventor-insert loop of `upload_disclosure` (`for inv in
extracted.get("inventors", [])`): inserts rows in extraction order, taking
each name via `inv.get("name", "Unknown")` and the optional email;
a failing insert aborts the loop. Returns the inserted rows, the emitted
events and whether every insert succeeded. -/
def invInsertLoop (failAt : Nat → Bool) (did now : Nat) :
    Nat → Nat → List RawInventor → List InventorRow × List Ev × Bool
  | _, _, [] => ([], [], true)
  | nid, i, inv :: rest =>
    if failAt i then ([], [Ev.insertInventor i], false)
    else
      let row : InventorRow :=
        { id := nid, disclosure_id := did,
          name := inv.name.getD (pyOf "Unknown"), email := inv.email,
          created_at := now }
      let r := invInsertLoop failAt did now (nid + 1) (i + 1) rest
      (row :: r.1, Ev.insertInventor i :: r.2.1, r.2.2)

/-- The `async with conn.transaction()` block of `upload_disclosure`:
insert the disclosure row; attempt the blob write *inside the transaction*
(its failure — and only its — is caught by the `try/except`, leaving
`pdf_object_key` null); insert the inventor rows; insert the initial
status-history row carrying the inserted row's (default) status.  An
uncaught relational failure rolls the whole transaction back: the tables
revert to their pre-transaction contents. -/
def uploadTxn (ext : Extracted) (filename : PyStr) (docket : PyStr)
    (f : UploadFault) (db : DbState) :
    DbState × List Ev × Except UploadErr DisclosureRow :=
  if f.failDisclosureInsert then
    (db, [Ev.beginTxn, Ev.insertDisclosure, Ev.rollback], .error .dbFailure)
  else
    let did := db.nextId
    let row0 : DisclosureRow :=
      { id := did, docket_number := docket, title := ext.title,
        description := ext.description, key_differences := ext.key_differences,
        status := defaultStatus, review_notes := none,
        original_filename := some filename, pdf_object_key := none,
        created_at := db.now, updated_at := db.now }
    let blob :=
      if f.blobOk then
        ({ row0 with pdf_object_key := some (upload_pdf_object_key did filename) },
         [Ev.blobPut true, Ev.setPdfKey])
      else (row0, [Ev.blobPut false])
    let inv := invInsertLoop f.failInventorInsert did db.now (did + 1) 0 ext.inventors
    if inv.2.2 = false then
      (db, Ev.beginTxn :: Ev.insertDisclosure :: blob.2 ++ inv.2.1 ++ [Ev.rollback],
       .error .dbFailure)
    else if f.failHistoryInsert then
      (db, Ev.beginTxn :: Ev.insertDisclosure :: blob.2 ++ inv.2.1 ++
        [Ev.insertHistory, Ev.rollback], .error .dbFailure)
    else
      let hid := did + 1 + inv.1.length
      let hrow : StatusHistoryRow :=
        { id := hid, disclosure_id := did, status := blob.1.status,
          changed_at := db.now }
      ({ db with
          nextId := hid + 1,
          disclosures := db.disclosures ++ [blob.1],
          inventors := db.inventors ++ inv.1,
          history := db.history ++ [hrow] },
       Ev.beginTxn :: Ev.insertDisclosure :: blob.2 ++ inv.2.1 ++
         [Ev.insertHistory, Ev.commit],
       .ok blob.1)

/-- Python `str.lower()`. -/
def pyLower (s : PyStr) : PyStr := s.map Char.toLower

/-- `POST /api/disclosures/upload` (`upload_disclosure` in
`routers/disclosures.py`).  External effects appear as parameters: the
multipart filename, whether `file.read()` succeeds, the PDF library's
parse outcome (page texts or an error), the collaborator response and the
abstract JSON parser, and the fault model.  Returns the final store, the
event trace and the route result (`.ok row` is the 200 response carrying
the created disclosure). -/
def upload_disclosure (filename : Option PyStr) (readOk : Bool)
    (pdfDoc : Except PyStr (List PyStr)) (apiKey : Bool)
    (jparse : PyStr → Option RawData) (aiResp : Option PyStr)
    (f : UploadFault) (db : DbState) :
    DbState × List Ev × Except UploadErr DisclosureRow :=
  match filename with
  | none => (db, [], .error .notPdf)
  | some name =>
    if name.isEmpty || !pyEndswith (pyOf ".pdf") (pyLower name) then
      (db, [], .error .notPdf)
    else if readOk = false then (db, [], .error .readFailed)
    else
      match pdfDoc with
      | .error e => (db, [], .error (.invalidPdf e))
      | .ok pages =>
        let text := extract_text_from_pdf pages
        if text.isEmpty || decide ((pyStrip text).length < 50) then
          (db, [], .error .insufficientText)
        else
          match extract_disclosure_info apiKey jparse aiResp with
          | .error e => (db, [], .error (.extractFailed e))
          | .ok ext =>
            let docket := get_next_docket_number (db.seq + 1)
            let r := uploadTxn ext name docket f { db with seq := db.seq + 1 }
            (r.1, Ev.seqAdvance :: r.2.1, r.2.2)

/-! ### `PATCH /api/disclosures/{id}` -/

/-- `models.DisclosureUpdate` as the route sees it: every field optional,
`None` when the JSON body omitted the field or carried an explicit null. -/
structure DisclosureUpdate where
  title : Option PyStr
  description : Option PyStr
  key_differences : Option PyStr
  status : Option PyStr
  review_notes : Option PyStr
deriving DecidableEq, Repr

/-- The four accepted values of the `status` column. -/
def validStatuses : List PyStr :=
  [pyOf "pending", pyOf "reviewed", pyOf "approved", pyOf "rejected"]

/-- Failure modes of the update route. -/
inductive UpdateErr
  | notFound
  | invalidStatus
  | noFields
deriving DecidableEq, Repr

/-- `update_disclosure` in `routers/disclosures.py`: look the row up
(`notFound` otherwise); while assembling the SET clause, reject an invalid
`status` outright (before any write, so the store is untouched); reject a
patch that sets no recognized field; otherwise overwrite exactly the
present fields, refresh `updated_at`, and append one status-history row
exactly when the patch's status differs from the stored one. -/
def update_disclosure (did : Nat) (u : DisclosureUpdate) (db : DbState) :
    DbState × Except UpdateErr DisclosureRow :=
  match db.disclosures.find? (fun r => r.id == did) with
  | none => (db, .error .notFound)
  | some row =>
    let statusBad :=
      match u.status with
      | some s => !(validStatuses.contains s)
      | none => false
    if statusBad then (db, .error .invalidStatus)
    else
      let anyField := u.title.isSome || u.description.isSome ||
        u.key_differences.isSome || u.status.isSome || u.review_notes.isSome
      if anyField = false then (db, .error .noFields)
      else
        let newRow : DisclosureRow :=
          { row with
              title := u.title.getD row.title,
              description := u.description.getD row.description,
              key_differences := u.key_differences.getD row.key_differences,
              status := u.status.getD row.status,
              review_notes :=
                match u.review_notes with
                | some v => some v
                | none => row.review_notes,
              updated_at := db.now }
        let statusChanged :=
          match u.status with
          | some s => s != row.status
          | none => false
        let newHist : StatusHistoryRow :=
          { id := db.nextId, disclosure_id := did,
            status := u.status.getD [], changed_at := db.now }
        let db2 : DbState :=
          { db with
              disclosures := db.disclosures.map
                (fun r => if r.id == did then newRow else r),
              history :=
                if statusChanged then db.history ++ [newHist] else db.history,
              nextId := if statusChanged then db.nextId + 1 else db.nextId }
        (db2, .ok newRow)

/-- The PATCH request body at the wire level, before Pydantic parsing:
each recognized field is absent (`none`), an explicit JSON null
(`some none`), or a string value (`some (some s)`). -/
structure PatchWire where
  title : Option (Option PyStr)
  description : Option (Option PyStr)
  key_differences : Option (Option PyStr)
  status : Option (Option PyStr)
  review_notes : Option (Option PyStr)
deriving DecidableEq, Repr

/-- Pydantic's parse of one `str | None = None` field: an absent field and
an explicit null both become `None`. -/
def parseField (f : Option (Option PyStr)) : Option PyStr := f.join

/-- `models.DisclosureUpdate` constructed from the wire body. -/
def parseWire (w : PatchWire) : DisclosureUpdate :=
  { title := parseField w.title, description := parseField w.description,
    key_differences := parseField w.key_differences,
    status := parseField w.status, review_notes := parseField w.review_notes }

/-- Rewrite one wire field so an explicit null becomes an omission. -/
def dropNull (f : Option (Option PyStr)) : Option (Option PyStr) :=
  match f with
  | some none => none
  | x => x

/-- Rewrite a wire body so every explicit null becomes an omission. -/
def wireDropNulls (w : PatchWire) : PatchWire :=
  { title := dropNull w.title, description := dropNull w.description,
    key_differences := dropNull w.key_differences,
    status := dropNull w.status, review_notes := dropNull w.review_notes }

/-! ### `GET /api/disclosures/export/csv` -/

/-- A `disclosures` row as fetched by the export query. `created_at` /
`updated_at` carry the `.isoformat()` rendering of the timestamp, `none`
for SQL NULL. -/
structure CsvDisclosureRow where
  id : Nat
  docket_number : String
  title : String
  description : String
  key_differences : String
  status : String
  review_notes : Option String
  original_filename : Option String
  created_at : Option String
  updated_at : Option String
deriving DecidableEq, Repr

/-- An `inventors` row as fetched by the export query (already ordered by
`created_at`). -/
structure CsvInventorRow where
  disclosure_id : Nat
  name : String
  email : Option String
deriving DecidableEq, Repr

/-- Python truthiness of an optional email (`if inv["email"]`). -/
def truthyStr : Option String → Bool
  | none => false
  | some s => !s.isEmpty

/-- The names accumulated for one disclosure by the export's grouping pass:
every inventor row of that disclosure, in fetch order. -/
def inventorNamesFor (invs : List CsvInventorRow) (did : Nat) : List String :=
  (invs.filter (fun i => i.disclosure_id == did)).map (fun i => i.name)

/-- The emails accumulated for one disclosure: only rows whose email is
truthy contribute (`if inv["email"]`). -/
def inventorEmailsFor (invs : List CsvInventorRow) (did : Nat) : List String :=
  ((invs.filter (fun i => i.disclosure_id == did)).filter
    (fun i => truthyStr i.email)).map (fun i => i.email.getD "")

/-- The fixed header row written by `export_disclosures_csv`. -/
def csvHeader : List String :=
  ["Docket Number", "Title", "Description", "Key Differences", "Status",
   "Review Notes", "Original Filename", "Inventor Names", "Inventor Emails",
   "Created At", "Updated At"]

/-- One data row of the export: optional fields fall back to the empty
string (`or ""` / the conditional isoformat), inventor names and emails
joined with `"; "`. -/
def csvRow (invs : List CsvInventorRow) (r : CsvDisclosureRow) : List String :=
  [r.docket_number, r.title, r.description, r.key_differences, r.status,
   r.review_notes.getD "", r.original_filename.getD "",
   String.intercalate "; " (inventorNamesFor invs r.id),
   String.intercalate "; " (inventorEmailsFor invs r.id),
   r.created_at.getD "", r.updated_at.getD ""]

/-- `export_disclosures_csv`: the header row followed by one data row per
fetched disclosure, in fetch order. -/
def export_disclosures_csv (rows : List CsvDisclosureRow)
    (invs : List CsvInventorRow) : List (List String) :=
  csvHeader :: rows.map (csvRow invs)

/-! ## Claims -/

/-- A sample stored disclosure row used by concrete instantiations. -/
def sampleRow : DisclosureRow :=
  { id := 1, docket_number := pyOf "IDF-0001", title := pyOf "T",
    description := pyOf "D", key_differences := pyOf "K",
    status := pyOf "pending", review_notes := none,
    original_filename := none, pdf_object_key := none,
    created_at := 0, updated_at := 0 }

/-- A sample store holding just `sampleRow`. -/
def sampleDb : DbState :=
  { seq := 1, nextId := 2, now := 5, disclosures := [sampleRow],
    inventors := [], history := [] }

/-- A wire body whose every recognized field is an explicit null. -/
def allNullWire : PatchWire :=
  { title := some none, description := some none,
    key_differences := some none, status := some none,
    review_notes := some none }

/-- A wire body setting a title and carrying an explicit null for
`review_notes`. -/
def titleAndNullNotesWire : PatchWire :=
  { title := some (some (pyOf "New")), description := none,
    key_differences := none, status := none, review_notes := some none }

/-- The inventor rows inserted by a fully successful inventor loop,
ids allocated consecutively from `nid`. -/
def invRowsOf (did now : Nat) : Nat → List RawInventor → List InventorRow
  | _, [] => []
  | nid, inv :: rest =>
    { id := nid, disclosure_id := did,
      name := inv.name.getD (pyOf "Unknown"), email := inv.email,
      created_at := now } :: invRowsOf did now (nid + 1) rest

/-- The disclosure row a fully successful creation transaction leaves in
the store (with the blob key present exactly when the blob write
succeeded). -/
def createdRow (ext : Extracted) (name docket : PyStr) (blobOk : Bool)
    (did now : Nat) : DisclosureRow :=
  { id := did, docket_number := docket, title := ext.title,
    description := ext.description, key_differences := ext.key_differences,
    status := defaultStatus, review_notes := none,
    original_filename := some name,
    pdf_object_key :=
      if blobOk then some (upload_pdf_object_key did name) else none,
    created_at := now, updated_at := now }

/-- The single status-history row a successful creation writes. -/
def createdHist (did hid now : Nat) : StatusHistoryRow :=
  { id := hid, disclosure_id := did, status := defaultStatus,
    changed_at := now }

/-- The event trace of a fully successful creation transaction over `n`
extracted inventors. -/
def uploadTrace (blobOk : Bool) (n : Nat) : List Ev :=
  [Ev.beginTxn, Ev.insertDisclosure, Ev.blobPut blobOk] ++
    (if blobOk then [Ev.setPdfKey] else []) ++
    (List.range' 0 n).map Ev.insertInventor ++ [Ev.insertHistory, Ev.commit]

/-- Recognizer for the blob-attachment event. -/
def isBlobPut : Ev → Bool
  | .blobPut _ => true
  | _ => false

/-- Recognizer for the transaction-commit event. -/
def isCommitEv : Ev → Bool
  | .commit => true
  | _ => false

/-- The ordering property asserted by the specification for the upload
trace: the blob attachment runs only after the transaction has committed,
i.e. a commit event precedes the (first) blob event. -/
def blobRunsOnlyAfterCommit (evs : List Ev) : Bool :=
  match evs.findIdx? isBlobPut with
  | none => true
  | some j =>
    match evs.findIdx? isCommitEv with
    | none => false
    | some i => decide (i < j)

/-- A stub JSON parser standing for `json.loads` on a collaborator response
carrying one inventor. -/
def extractorStub : PyStr → Option RawData :=
  fun _ => some
    { title := some (.jstr (pyOf "T")), description := some (.jstr (pyOf "D")),
      key_differences := some (.jstr (pyOf "K")),
      inventors := some [{ name := some (pyOf "N"), email := none }] }

/-- The extraction result `extractorStub` leads to. -/
def extractedStub : Extracted :=
  { title := pyOf "T", description := pyOf "D", key_differences := pyOf "K",
    inventors := [{ name := some (pyOf "N"), email := none }] }

/-- The empty store. -/
def emptyDb : DbState :=
  { seq := 0, nextId := 0, now := 0, disclosures := [], inventors := [],
    history := [] }

/-! ## Theorems -/

theorem digitChar_toNat (d : Nat) (hd : d < 10) : (digitChar d).toNat = 48 + d := by
  interval_cases d <;> rfl

theorem digitChar_bounds (d : Nat) (hd : d < 10) :
    '0' ≤ digitChar d ∧ digitChar d ≤ '9' := by
  interval_cases d <;> exact ⟨by decide, by decide⟩

theorem natToDigits_ne_nil (n : Nat) : natToDigits n ≠ [] := by
  rw [natToDigits]
  split
  · simp
  · simp

theorem natToDigits_length_pos (n : Nat) : 0 < (natToDigits n).length :=
  List.length_pos.mpr (natToDigits_ne_nil n)

theorem natToDigits_digits (n : Nat) :
    ∀ c ∈ natToDigits n, '0' ≤ c ∧ c ≤ '9' := by
  induction n using Nat.strong_induction_on with
  | _ n ih =>
    rw [natToDigits]
    split
    · intro c hc
      simp only [List.mem_singleton] at hc
      subst hc
      rename_i h
      exact digitChar_bounds n h
    · intro c hc
      rename_i h
      have h10 : 10 ≤ n := Nat.le_of_not_lt h
      rcases List.mem_append.mp hc with h1 | h2
      · exact ih (n / 10) (Nat.div_lt_self (by omega) (by omega)) c h1
      · simp only [List.mem_singleton] at h2
        subst h2
        exact digitChar_bounds (n % 10) (Nat.mod_lt _ (by omega))

theorem digitsVal_append (ds es : List Char) :
    digitsVal (ds ++ es) =
      es.foldl (fun acc c => acc * 10 + (c.toNat - 48)) (digitsVal ds) := by
  simp [digitsVal, List.foldl_append]

theorem digitsVal_natToDigits (n : Nat) : digitsVal (natToDigits n) = n := by
  induction n using Nat.strong_induction_on with
  | _ n ih =>
    rw [natToDigits]
    split
    · rename_i h
      simp [digitsVal, digitChar_toNat n h]
    · rename_i h
      have h10 : 10 ≤ n := Nat.le_of_not_lt h
      rw [digitsVal_append, ih (n / 10) (Nat.div_lt_self (by omega) (by omega))]
      have hm : n % 10 < 10 := Nat.mod_lt _ (by omega)
      simp [digitsVal, digitChar_toNat (n % 10) hm]
      omega

theorem digitsVal_replicate_zero (k : Nat) (ds : List Char) :
    digitsVal (List.replicate k '0' ++ ds) = digitsVal ds := by
  induction k with
  | zero => simp
  | succ k ihk =>
    have : List.replicate (k + 1) '0' ++ ds = '0' :: (List.replicate k '0' ++ ds) := by
      simp [List.replicate_succ]
    rw [this]
    have hstep : digitsVal ('0' :: (List.replicate k '0' ++ ds)) =
        digitsVal (List.replicate k '0' ++ ds) := by
      simp [digitsVal]
    rw [hstep, ihk]

theorem natToDigits_length_ge (k : Nat) :
    ∀ n : Nat, 10 ^ k ≤ n → k + 1 ≤ (natToDigits n).length := by
  induction k with
  | zero => intro n _; exact natToDigits_length_pos n
  | succ k ihk =>
    intro n hn
    have h10 : 10 ≤ n := by
      calc 10 = 10 ^ 1 := by ring
      _ ≤ 10 ^ (k + 1) := Nat.pow_le_pow_right (by omega) (by omega)
      _ ≤ n := hn
    rw [natToDigits]
    split
    · omega
    · have hdiv : 10 ^ k ≤ n / 10 := by
        rw [Nat.le_div_iff_mul_le (by omega)]
        calc 10 ^ k * 10 = 10 ^ (k + 1) := by ring
        _ ≤ n := hn
      have := ihk (n / 10) hdiv
      simp only [List.length_append, List.length_singleton]
      omega

theorem natToDigits_length_le (k : Nat) :
    ∀ n : Nat, n < 10 ^ k → (natToDigits n).length ≤ max 1 k := by
  induction k with
  | zero =>
    intro n hn
    have hn0 : n = 0 := by omega
    subst hn0
    rw [natToDigits]
    norm_num
  | succ k ihk =>
    intro n hn
    rw [natToDigits]
    split
    · simp
    · rename_i h
      have h10 : 10 ≤ n := Nat.le_of_not_lt h
      have hdiv : n / 10 < 10 ^ k := by
        rw [Nat.div_lt_iff_lt_mul (by omega)]
        calc n < 10 ^ (k + 1) := hn
        _ = 10 ^ k * 10 := by ring
      have := ihk (n / 10) hdiv
      simp only [List.length_append, List.length_singleton]
      have hk : 1 ≤ k := by
        by_contra hk0
        have : k = 0 := by omega
        subst this
        simp at hdiv
        omega
      omega

theorem pyStripLeft_cons_ws (c : Char) (s : PyStr) (h : c.isWhitespace = true) :
    pyStripLeft (c :: s) = pyStripLeft s := by
  simp [pyStripLeft, List.dropWhile_cons, h]

theorem pyStripLeft_cons_not_ws (c : Char) (s : PyStr) (h : c.isWhitespace = false) :
    pyStripLeft (c :: s) = c :: s := by
  simp [pyStripLeft, List.dropWhile_cons, h]

theorem pyStripRight_snoc_ws (c : Char) (s : PyStr) (h : c.isWhitespace = true) :
    pyStripRight (s ++ [c]) = pyStripRight s := by
  simp [pyStripRight, List.reverse_append, List.dropWhile_cons, h]

theorem pyStripRight_snoc_not_ws (c : Char) (s : PyStr) (h : c.isWhitespace = false) :
    pyStripRight (s ++ [c]) = s ++ [c] := by
  simp [pyStripRight, List.reverse_append, List.dropWhile_cons, h]

theorem pyStrip_cons_ws (c : Char) (s : PyStr) (h : c.isWhitespace = true) :
    pyStrip (c :: s) = pyStrip s := by
  simp [pyStrip, pyStripLeft_cons_ws c s h]

theorem pyStrip_snoc_ws (c : Char) (s : PyStr) (h : c.isWhitespace = true) :
    pyStrip (s ++ [c]) = pyStrip s := by
  induction s with
  | nil => simp [pyStrip, pyStripLeft, pyStripRight, List.dropWhile_cons, h]
  | cons d s ih =>
    by_cases hd : d.isWhitespace = true
    · have h1 : pyStrip (d :: s ++ [c]) = pyStrip (s ++ [c]) := pyStrip_cons_ws d _ hd
      have h2 : pyStrip (d :: s) = pyStrip s := pyStrip_cons_ws d s hd
      rw [List.cons_append] at h1 ⊢
      rw [h1, ih, h2]
    · have hd' : d.isWhitespace = false := by
        cases hdd : d.isWhitespace
        · rfl
        · exact absurd hdd hd
      have h1 : pyStrip (d :: (s ++ [c])) = pyStripRight (d :: (s ++ [c])) := by
        simp [pyStrip, pyStripLeft_cons_not_ws d _ hd']
      have h2 : pyStrip (d :: s) = pyStripRight (d :: s) := by
        simp [pyStrip, pyStripLeft_cons_not_ws d s hd']
      rw [List.cons_append, h1]
      have h3 : d :: (s ++ [c]) = (d :: s) ++ [c] := by simp
      rw [h3, pyStripRight_snoc_ws c (d :: s) h, h2]

theorem pyStripRight_isPre (t : PyStr) : pyStripRight t <+: t := by
  have h := List.dropWhile_suffix (l := t.reverse) (p := Char.isWhitespace)
  have := List.reverse_prefix.mpr h
  simpa [pyStripRight] using this

theorem pyStripLeft_of_stripped (t : PyStr) (h : pyStripLeft t = t) :
    pyStripLeft (pyStripRight t) = pyStripRight t := by
  cases ht : pyStripRight t with
  | nil => simp [pyStripLeft, List.dropWhile_nil]
  | cons c r =>
    have hp : (c :: r) <+: t := ht ▸ pyStripRight_isPre t
    obtain ⟨u, hu⟩ := hp
    have hc : c.isWhitespace = false := by
      cases hcc : c.isWhitespace
      · rfl
      · exfalso
        have ht' : t = c :: (r ++ u) := by rw [← hu]; simp
        have hlen := congrArg List.length h
        rw [ht'] at hlen
        rw [pyStripLeft_cons_ws c _ hcc] at hlen
        have hle : (pyStripLeft (r ++ u)).length ≤ (r ++ u).length :=
          (List.dropWhile_suffix _).length_le
        simp [pyStripLeft] at hlen hle
        omega
    exact pyStripLeft_cons_not_ws c r hc

theorem dropWhile_dropWhile (p : Char → Bool) (l : List Char) :
    List.dropWhile p (List.dropWhile p l) = List.dropWhile p l := by
  induction l with
  | nil => simp
  | cons a l ih =>
    cases ha : p a
    · simp [List.dropWhile_cons, ha]
    · simp [List.dropWhile_cons, ha, ih]

theorem pyStripRight_idem (t : PyStr) : pyStripRight (pyStripRight t) = pyStripRight t := by
  simp [pyStripRight, List.reverse_reverse, dropWhile_dropWhile]

theorem pyStrip_idem (s : PyStr) : pyStrip (pyStrip s) = pyStrip s := by
  show pyStripRight (pyStripLeft (pyStripRight (pyStripLeft s))) =
    pyStripRight (pyStripLeft s)
  have hL : pyStripLeft (pyStripLeft s) = pyStripLeft s :=
    dropWhile_dropWhile Char.isWhitespace s
  rw [pyStripLeft_of_stripped (pyStripLeft s) hL, pyStripRight_idem]

theorem pyStrip_sandwich (c d : Char) (m : PyStr) (hc : c.isWhitespace = false)
    (hd : d.isWhitespace = false) : pyStrip (c :: m ++ [d]) = c :: m ++ [d] := by
  show pyStripRight (pyStripLeft (c :: (m ++ [d]))) = _
  rw [pyStripLeft_cons_not_ws c _ hc]
  have h : c :: (m ++ [d]) = (c :: m) ++ [d] := by simp
  rw [h, pyStripRight_snoc_not_ws d (c :: m) hd]

theorem pyStrip_fenceWrap (s : PyStr) : pyStrip (fenceWrap s) = fenceWrap s := by
  have h : fenceWrap s =
      '`' :: (['`', '`', 'j', 's', 'o', 'n', '\n'] ++ s ++ ['\n', '`', '`']) ++ ['`'] := by
    simp [fenceWrap, fenceJson, fence3]
  rw [h]
  exact pyStrip_sandwich '`' '`' _ (by decide) (by decide)

theorem stripFences_fenceWrap (s : PyStr) : stripFences (fenceWrap s) = pyStrip s := by
  have h1 : pyStartswith fenceJson (fenceWrap s) = true := rfl
  have hdrop : (fenceWrap s).drop 7 = '\n' :: (s ++ '\n' :: fence3) := by
    simp [fenceWrap, fenceJson]
  have h2 : pyStartswith fence3 ('\n' :: (s ++ '\n' :: fence3)) = false := rfl
  have h3 : pyEndswith fence3 ('\n' :: (s ++ '\n' :: fence3)) = true := by
    simp [pyEndswith, fence3, List.reverse_append, List.isPrefixOf]
  have h4 : pyDropEnd 3 ('\n' :: (s ++ '\n' :: fence3)) = '\n' :: (s ++ ['\n']) := by
    simp [pyDropEnd, fence3, List.reverse_append]
  have h5 : pyStrip ('\n' :: (s ++ ['\n'])) = pyStrip s := by
    rw [pyStrip_cons_ws _ _ (by decide), pyStrip_snoc_ws _ _ (by decide)]
  simp only [stripFences, pyStrip_fenceWrap, h1, if_true, hdrop, h2, h3, h4,
    Bool.false_eq_true, if_false]
  exact h5

theorem pyStartswith_fenceJson_imp (t : PyStr)
    (h : pyStartswith fenceJson t = true) : pyStartswith fence3 t = true := by
  have hj : fenceJson <+: t := List.isPrefixOf_iff_prefix.mp h
  have h3 : fence3 <+: fenceJson := ⟨['j', 's', 'o', 'n'], rfl⟩
  exact List.isPrefixOf_iff_prefix.mpr (h3.trans hj)

theorem stripFences_of_plain (s : PyStr)
    (hpre : pyStartswith fence3 (pyStrip s) = false)
    (hsuf : pyEndswith fence3 (pyStrip s) = false) :
    stripFences s = pyStrip s := by
  have hjson : pyStartswith fenceJson (pyStrip s) = false := by
    cases h : pyStartswith fenceJson (pyStrip s)
    · rfl
    · exact absurd (pyStartswith_fenceJson_imp _ h) (by simp [hpre])
  simp only [stripFences, hjson, hpre, hsuf, Bool.false_eq_true, if_false]
  exact pyStrip_idem s

/-- C8: for every counter value `n` issued by the docket sequencer,
`get_next_docket_number` returns `"IDF-"` followed by the decimal rendering
of `n` zero-padded to 4 digits; values with five or more digits simply
widen the field (no wraparound — the digit block still decodes to `n`, and
no error); hence every issued docket number is `IDF-` followed by at least
four decimal digits. -/
theorem docket_number_format (n : Nat) :
    ∃ ds : PyStr,
      get_next_docket_number n = pyOf "IDF-" ++ ds ∧
      4 ≤ ds.length ∧
      (∀ c ∈ ds, '0' ≤ c ∧ c ≤ '9') ∧
      digitsVal ds = n ∧
      ds.length = max 4 (natToDigits n).length ∧
      (10000 ≤ n → ds = natToDigits n) ∧
      (n < 10000 → ds.length = 4) := by
  refine ⟨pyFormat04 n, rfl, ?_, ?_, ?_, ?_, ?_, ?_⟩
  · have h1 : 0 < (natToDigits n).length := natToDigits_length_pos n
    simp only [pyFormat04, List.length_append, List.length_replicate]
    omega
  · intro c hc
    rcases List.mem_append.mp hc with h1 | h2
    · have := List.eq_of_mem_replicate h1
      subst this
      exact ⟨le_refl _, by decide⟩
    · exact natToDigits_digits n c h2
  · simp only [pyFormat04]
    rw [digitsVal_replicate_zero, digitsVal_natToDigits]
  · have h1 : 0 < (natToDigits n).length := natToDigits_length_pos n
    simp only [pyFormat04, List.length_append, List.length_replicate]
    omega
  · intro hn
    have h5 : 5 ≤ (natToDigits n).length := by
      have := natToDigits_length_ge 4 n (by norm_num; omega)
      omega
    have h0 : 4 - (natToDigits n).length = 0 := by omega
    simp [pyFormat04, h0]
  · intro hn
    have h4 : (natToDigits n).length ≤ 4 := by
      have := natToDigits_length_le 4 n (by norm_num; omega)
      omega
    have h1 : 0 < (natToDigits n).length := natToDigits_length_pos n
    simp only [pyFormat04, List.length_append, List.length_replicate]
    omega

/-- C9: the CSV export has the fixed eleven-column header, one data row per
disclosure; in each data row the inventor names and the inventor emails of
that disclosure are each flattened into a single `"; "`-joined field, and
absent optional fields render as the empty string rather than a null
marker. -/
theorem csv_export_shape (rows : List CsvDisclosureRow)
    (invs : List CsvInventorRow) :
    (export_disclosures_csv rows invs).length = rows.length + 1 ∧
    (export_disclosures_csv rows invs).head? = some csvHeader ∧
    csvHeader.length = 11 ∧
    csvHeader = ["Docket Number", "Title", "Description", "Key Differences",
      "Status", "Review Notes", "Original Filename", "Inventor Names",
      "Inventor Emails", "Created At", "Updated At"] ∧
    (export_disclosures_csv rows invs).tail = rows.map (csvRow invs) ∧
    (∀ r : CsvDisclosureRow, (csvRow invs r).length = 11 ∧
      (csvRow invs r).get? 7 =
        some (String.intercalate "; " (inventorNamesFor invs r.id)) ∧
      (csvRow invs r).get? 8 =
        some (String.intercalate "; " (inventorEmailsFor invs r.id)) ∧
      (r.review_notes = none → (csvRow invs r).get? 5 = some "") ∧
      (r.original_filename = none → (csvRow invs r).get? 6 = some "") ∧
      (r.created_at = none → (csvRow invs r).get? 9 = some "") ∧
      (r.updated_at = none → (csvRow invs r).get? 10 = some "")) := by
  refine ⟨by simp [export_disclosures_csv], rfl, rfl, rfl,
    by simp [export_disclosures_csv], ?_⟩
  intro r
  refine ⟨rfl, rfl, rfl, ?_, ?_, ?_, ?_⟩
  · intro h; simp [csvRow, h]
  · intro h; simp [csvRow, h]
  · intro h; simp [csvRow, h]
  · intro h; simp [csvRow, h]

/-- C9 witness: the export of one disclosure (all optional fields NULL) with
two inventors, the second lacking an email. -/
theorem csv_export_shape_witness :
    ((export_disclosures_csv
        [{ id := 7, docket_number := "IDF-0001", title := "T",
           description := "D", key_differences := "K", status := "pending",
           review_notes := none, original_filename := none,
           created_at := none, updated_at := none }]
        [{ disclosure_id := 7, name := "A", email := some "a@x" },
         { disclosure_id := 7, name := "B", email := none }]).length = 2) ∧
    (csvRow
        [{ disclosure_id := 7, name := "A", email := some "a@x" },
         { disclosure_id := 7, name := "B", email := none }]
        { id := 7, docket_number := "IDF-0001", title := "T",
          description := "D", key_differences := "K", status := "pending",
          review_notes := none, original_filename := none,
          created_at := none, updated_at := none }).get? 7 =
      some "A; B" := by
  have h := csv_export_shape
    [{ id := 7, docket_number := "IDF-0001", title := "T",
       description := "D", key_differences := "K", status := "pending",
       review_notes := none, original_filename := none,
       created_at := none, updated_at := none }]
    [{ disclosure_id := 7, name := "A", email := some "a@x" },
     { disclosure_id := 7, name := "B", email := none }]
  refine ⟨h.1, ?_⟩
  have h7 := (h.2.2.2.2.2
    { id := 7, docket_number := "IDF-0001", title := "T",
      description := "D", key_differences := "K", status := "pending",
      review_notes := none, original_filename := none,
      created_at := none, updated_at := none }).2.1
  rw [h7]
  rfl

/-- C5: wrapping a collaborator response in a markdown code fence
(` ```json ... ``` `) changes nothing: the fence is stripped before
parsing, so a fence-wrapped response parses to the same extraction result
as the unwrapped one (for any parser, since the parser input is equal);
and when parsing the stripped content still fails, the pipeline signals the
malformed-extraction error. -/
theorem fence_strip_parse_equiv (s : PyStr) (jparse : PyStr → Option RawData)
    (hs : s ≠ [])
    (hpre : pyStartswith fence3 (pyStrip s) = false)
    (hsuf : pyEndswith fence3 (pyStrip s) = false) :
    stripFences (fenceWrap s) = stripFences s ∧
    extract_disclosure_info true jparse (some (fenceWrap s)) =
      extract_disclosure_info true jparse (some s) ∧
    (jparse (stripFences s) = none →
      extract_disclosure_info true jparse (some s) = .error .malformedJson) := by
  have h1 : stripFences (fenceWrap s) = pyStrip s := stripFences_fenceWrap s
  have h2 : stripFences s = pyStrip s := stripFences_of_plain s hpre hsuf
  have heq : stripFences (fenceWrap s) = stripFences s := by rw [h1, h2]
  have hwne : (fenceWrap s).isEmpty = false := rfl
  have hse : s.isEmpty = false := by
    cases s with
    | nil => exact absurd rfl hs
    | cons c t => rfl
  refine ⟨heq, ?_, ?_⟩
  · simp only [extract_disclosure_info, hwne, hse, heq, Bool.false_eq_true,
      if_false]
  · intro hp
    simp only [extract_disclosure_info, hse, hp, Bool.false_eq_true, if_false]
    simp

/-- C5 witness: the scenario response `{"x":1}`-like content `{}` wrapped
in a tagged fence parses identically to the unwrapped content, for a
parser that fails on everything (exercising the malformed-extraction
conjunct as well). -/
theorem fence_strip_parse_equiv_witness :
    stripFences (fenceWrap (pyOf "\x7b\x7d")) = stripFences (pyOf "\x7b\x7d") ∧
    extract_disclosure_info true (fun _ => none) (some (fenceWrap (pyOf "\x7b\x7d"))) =
      extract_disclosure_info true (fun _ => none) (some (pyOf "\x7b\x7d")) ∧
    extract_disclosure_info true (fun _ => none) (some (pyOf "\x7b\x7d")) =
      .error .malformedJson := by
  have h := fence_strip_parse_equiv (pyOf "\x7b\x7d") (fun _ => none)
    (by decide) (by decide) (by decide)
  exact ⟨h.1, h.2.1, h.2.2 rfl⟩

/-- C6: an extraction result in which the text fields come back as lists of
strings is normalized by joining the elements, each prefixed with the
bullet marker `• ` and newline-separated; in particular `key_differences`
given as `["a","b"]` is stored as `"• a\n• b"`. -/
theorem list_fields_bulleted :
    (∀ (jt jd jk : JVal) (invsOpt : Option (List RawInventor))
        (jparse : PyStr → Option RawData) (content : PyStr),
        content.isEmpty = false →
        jparse (stripFences content) = some ⟨some jt, some jd, some jk, invsOpt⟩ →
        jfalsy (some jt) = false → jfalsy (some jd) = false →
        jfalsy (some jk) = false →
        extract_disclosure_info true jparse (some content) =
          .ok ⟨normalizeJVal jt, normalizeJVal jd, normalizeJVal jk,
            invsOpt.getD []⟩) ∧
    (∀ (a : PyStr) (rest : List PyStr), joinBullets (a :: rest) =
        bulletMarker ++ a ++
          (if rest.isEmpty then [] else '\n' :: joinBullets rest)) ∧
    normalizeJVal (.jlist [pyOf "a", pyOf "b"]) = pyOf "• a\n• b" := by
  refine ⟨?_, ?_, by decide⟩
  · intro jt jd jk invsOpt jparse content hc hp ht hd hk
    simp only [extract_disclosure_info, hc, hp, ht, hd, hk,
      Bool.false_eq_true, if_false]
    rfl
  · intro a rest
    cases rest with
    | nil => simp [joinBullets, List.intercalate]
    | cons b t =>
      simp only [joinBullets, List.intercalate, List.map_cons,
        List.intersperse_cons₂, List.flatten_cons, List.isEmpty_cons,
        Bool.false_eq_true, if_false]
      simp [List.append_assoc]

/-- C6 witness: the round-trip scenario, with `key_differences` returned as
`["a","b"]` and stored as `"• a\n• b"`. -/
theorem list_fields_bulleted_witness :
    extract_disclosure_info true
      (fun _ => some ⟨some (.jstr (pyOf "T")), some (.jstr (pyOf "D")),
        some (.jlist [pyOf "a", pyOf "b"]), none⟩)
      (some (pyOf "x")) =
      .ok ⟨pyOf "T", pyOf "D", pyOf "• a\n• b", []⟩ := by
  have h := list_fields_bulleted.1 (.jstr (pyOf "T")) (.jstr (pyOf "D"))
    (.jlist [pyOf "a", pyOf "b"]) none
    (fun _ => some ⟨some (.jstr (pyOf "T")), some (.jstr (pyOf "D")),
      some (.jlist [pyOf "a", pyOf "b"]), none⟩)
    (pyOf "x") rfl rfl rfl rfl rfl
  rw [h]
  rfl

/-- C4: an update whose patch carries a status outside the four valid
values is rejected with the invalid-status error and the store is left
untouched — no field of the disclosure is modified, whatever other fields
the patch carries. -/
theorem invalid_status_rejected (did : Nat) (u : DisclosureUpdate)
    (db : DbState) (row : DisclosureRow) (s : PyStr)
    (hrow : db.disclosures.find? (fun r => r.id == did) = some row)
    (hs : u.status = some s)
    (hbad : validStatuses.contains s = false) :
    update_disclosure did u db = (db, .error .invalidStatus) := by
  simp only [update_disclosure, hrow, hs, hbad]
  simp

/-- C4 witness: a patch that sets a valid title together with
`status="bogus"` is rejected whole; the store is unchanged. -/
theorem invalid_status_rejected_witness :
    update_disclosure 1
      { title := some (pyOf "New"), description := none,
        key_differences := none, status := some (pyOf "bogus"),
        review_notes := none } sampleDb =
      (sampleDb, .error .invalidStatus) :=
  invalid_status_rejected 1 _ sampleDb sampleRow
    (pyOf "bogus") (by decide) rfl (by decide)

theorem parseField_dropNull (f : Option (Option PyStr)) :
    parseField (dropNull f) = parseField f := by
  cases f with
  | none => rfl
  | some o => cases o <;> rfl

theorem parseWire_wireDropNulls (w : PatchWire) :
    parseWire (wireDropNulls w) = parseWire w := by
  simp [parseWire, wireDropNulls, parseField_dropNull]

/-- C10: a recognized patch field carrying an explicit null is treated
exactly like an omitted field — the update behaves identically on the two
wire bodies; consequently no field (in particular `review_notes`) can be
cleared back to null by an update, and a patch whose recognized fields are
all explicit nulls is rejected as an empty patch. -/
theorem null_fields_ignored :
    (∀ (w : PatchWire) (did : Nat) (db : DbState),
        update_disclosure did (parseWire w) db =
          update_disclosure did (parseWire (wireDropNulls w)) db) ∧
    (∀ (did : Nat) (u : DisclosureUpdate) (db db2 : DbState)
        (r row : DisclosureRow),
        db.disclosures.find? (fun x => x.id == did) = some row →
        update_disclosure did u db = (db2, .ok r) →
        r.review_notes = none → row.review_notes = none) ∧
    (∀ (w : PatchWire) (did : Nat) (db : DbState) (row : DisclosureRow),
        w.title = some none → w.description = some none →
        w.key_differences = some none → w.status = some none →
        w.review_notes = some none →
        db.disclosures.find? (fun x => x.id == did) = some row →
        update_disclosure did (parseWire w) db = (db, .error .noFields)) := by
  refine ⟨?_, ?_, ?_⟩
  · intro w did db
    rw [parseWire_wireDropNulls]
  · intro did u db db2 r row hfind h2 hnone
    simp only [update_disclosure, hfind] at h2
    split at h2
    · simp at h2
    · split at h2
      · simp at h2
      · simp only [Prod.mk.injEq, Except.ok.injEq] at h2
        obtain ⟨hdb2, hr⟩ := h2
        subst hr
        cases hrn : u.review_notes with
        | some v => simp [hrn] at hnone
        | none =>
          simp only [hrn] at hnone
          exact hnone
  · intro w did db row h1 h2 h3 h4 h5 hfind
    have hu : parseWire w =
        { title := none, description := none, key_differences := none,
          status := none, review_notes := none } := by
      simp [parseWire, parseField, h1, h2, h3, h4, h5]
    rw [hu]
    simp only [update_disclosure, hfind]
    simp

/-- C10 witness: an all-nulls wire body is rejected as an empty patch, and
a body carrying an explicit null for `review_notes` updates exactly like
the same body with the null dropped. -/
theorem null_fields_ignored_witness :
    update_disclosure 1 (parseWire allNullWire) sampleDb =
      (sampleDb, .error .noFields) ∧
    (∀ did db, update_disclosure did (parseWire titleAndNullNotesWire) db =
      update_disclosure did (parseWire (wireDropNulls titleAndNullNotesWire))
        db) := by
  constructor
  · exact null_fields_ignored.2.2 allNullWire 1 sampleDb sampleRow
      rfl rfl rfl rfl rfl (by decide)
  · intro did db
    exact null_fields_ignored.1 titleAndNullNotesWire did db

/-- C7: an upload whose extracted text is shorter than 50 characters after
trimming is rejected with the insufficient-content error before any
database access: the store is returned unchanged (no disclosure row, no
sequence advance) and no database event is emitted. -/
theorem short_text_rejected (name : PyStr) (pages : List PyStr)
    (apiKey : Bool) (jparse : PyStr → Option RawData) (aiResp : Option PyStr)
    (f : UploadFault) (db : DbState)
    (hname1 : name.isEmpty = false)
    (hname2 : pyEndswith (pyOf ".pdf") (pyLower name) = true)
    (hshort : (pyStrip (extract_text_from_pdf pages)).length < 50) :
    upload_disclosure (some name) true (.ok pages) apiKey jparse aiResp f db =
      (db, [], .error .insufficientText) := by
  simp only [upload_disclosure, hname1, hname2]
  simp [hshort]

/-- C7 witness: a 30-character single-page document is rejected with the
insufficient-content error and the store is untouched. -/
theorem short_text_rejected_witness :
    upload_disclosure (some (pyOf "short.pdf")) true
      (.ok [List.replicate 30 'x']) true (fun _ => none) none noFault
      sampleDb = (sampleDb, [], .error .insufficientText) :=
  short_text_rejected (pyOf "short.pdf") [List.replicate 30 'x'] true
    (fun _ => none) none noFault sampleDb (by decide) (by decide) (by decide)

theorem invRowsOf_length (did now : Nat) :
    ∀ (l : List RawInventor) (nid : Nat),
      (invRowsOf did now nid l).length = l.length := by
  intro l
  induction l with
  | nil => intro nid; rfl
  | cons inv rest ih =>
    intro nid
    simp [invRowsOf, ih (nid + 1)]

theorem invInsertLoop_all_ok (failAt : Nat → Bool)
    (hf : ∀ i, failAt i = false) (did now : Nat) :
    ∀ (l : List RawInventor) (nid i : Nat),
      invInsertLoop failAt did now nid i l =
        (invRowsOf did now nid l,
         (List.range' i l.length).map Ev.insertInventor, true) := by
  intro l
  induction l with
  | nil => intro nid i; simp [invInsertLoop, invRowsOf, List.range']
  | cons inv rest ih =>
    intro nid i
    simp [invInsertLoop, hf i, invRowsOf, ih (nid + 1) (i + 1), List.range']

theorem invInsertLoop_ok_length (failAt : Nat → Bool) (did now : Nat) :
    ∀ (l : List RawInventor) (nid i : Nat),
      (invInsertLoop failAt did now nid i l).2.2 = true →
      (invInsertLoop failAt did now nid i l).1.length = l.length := by
  intro l
  induction l with
  | nil => intro nid i _; rfl
  | cons inv rest ih =>
    intro nid i hok
    by_cases hfi : failAt i = true
    · simp [invInsertLoop, hfi] at hok
    · have hfi' : failAt i = false := by
        cases h : failAt i
        · rfl
        · exact absurd h hfi
      simp only [invInsertLoop, hfi', Bool.false_eq_true, if_false] at hok ⊢
      simp [ih (nid + 1) (i + 1) hok]

theorem invInsertLoop_ok_no_fail (failAt : Nat → Bool) (did now : Nat) :
    ∀ (l : List RawInventor) (nid i : Nat),
      (invInsertLoop failAt did now nid i l).2.2 = true →
      ∀ j, j < l.length → failAt (i + j) = false := by
  intro l
  induction l with
  | nil => intro nid i _ j hj; simp at hj
  | cons inv rest ih =>
    intro nid i hok j hj
    by_cases hfi : failAt i = true
    · simp [invInsertLoop, hfi] at hok
    · have hfi' : failAt i = false := by
        cases h : failAt i
        · rfl
        · exact absurd h hfi
      simp only [invInsertLoop, hfi', Bool.false_eq_true, if_false] at hok
      cases j with
      | zero => simpa using hfi'
      | succ j' =>
        have := ih (nid + 1) (i + 1) hok j' (by simpa using hj)
        have harith : i + 1 + j' = i + (j' + 1) := by omega
        rw [harith] at this
        exact this

theorem uploadTxn_success (ext : Extracted) (name docket : PyStr)
    (f : UploadFault) (db : DbState)
    (hfd : f.failDisclosureInsert = false)
    (hfi : ∀ i, f.failInventorInsert i = false)
    (hfh : f.failHistoryInsert = false) :
    uploadTxn ext name docket f db =
      ({ db with
          nextId := db.nextId + 1 + ext.inventors.length + 1,
          disclosures := db.disclosures ++
            [createdRow ext name docket f.blobOk db.nextId db.now],
          inventors := db.inventors ++
            invRowsOf db.nextId db.now (db.nextId + 1) ext.inventors,
          history := db.history ++
            [createdHist db.nextId (db.nextId + 1 + ext.inventors.length)
              db.now] },
       uploadTrace f.blobOk ext.inventors.length,
       .ok (createdRow ext name docket f.blobOk db.nextId db.now)) := by
  have hloop := invInsertLoop_all_ok f.failInventorInsert hfi db.nextId db.now
    ext.inventors (db.nextId + 1) 0
  have hlen := invRowsOf_length db.nextId db.now ext.inventors (db.nextId + 1)
  cases hb : f.blobOk <;>
    simp [uploadTxn, hfd, hfh, hloop, hb, hlen, createdRow, createdHist,
      uploadTrace]

theorem upload_disclosure_txn (name : PyStr) (pages : List PyStr)
    (apiKey : Bool) (jparse : PyStr → Option RawData) (aiResp : Option PyStr)
    (ext : Extracted) (f : UploadFault) (db : DbState)
    (hn1 : name.isEmpty = false)
    (hn2 : pyEndswith (pyOf ".pdf") (pyLower name) = true)
    (hne : (extract_text_from_pdf pages).isEmpty = false)
    (hlen : ¬ (pyStrip (extract_text_from_pdf pages)).length < 50)
    (hex : extract_disclosure_info apiKey jparse aiResp = .ok ext) :
    upload_disclosure (some name) true (.ok pages) apiKey jparse aiResp f db =
      ((uploadTxn ext name (get_next_docket_number (db.seq + 1)) f
          { db with seq := db.seq + 1 }).1,
       Ev.seqAdvance :: (uploadTxn ext name
          (get_next_docket_number (db.seq + 1)) f
          { db with seq := db.seq + 1 }).2.1,
       (uploadTxn ext name (get_next_docket_number (db.seq + 1)) f
          { db with seq := db.seq + 1 }).2.2) := by
  simp [upload_disclosure, hn1, hn2, hne, hlen, hex]

/-- C3: a successful creation writes exactly one status-history row,
recording the initial `pending` status for the new disclosure; and a
successful update appends exactly one history row (with the new status)
precisely when the patch carries a status different from the stored one —
a patch that omits status, or repeats the current status, appends
nothing. -/
theorem status_history_discipline :
    (∀ (name : PyStr) (pages : List PyStr) (apiKey : Bool)
        (jparse : PyStr → Option RawData) (aiResp : Option PyStr)
        (ext : Extracted) (f : UploadFault) (db : DbState),
        name.isEmpty = false →
        pyEndswith (pyOf ".pdf") (pyLower name) = true →
        (extract_text_from_pdf pages).isEmpty = false →
        ¬ (pyStrip (extract_text_from_pdf pages)).length < 50 →
        extract_disclosure_info apiKey jparse aiResp = .ok ext →
        f.failDisclosureInsert = false →
        (∀ i, f.failInventorInsert i = false) →
        f.failHistoryInsert = false →
        ∃ (row : DisclosureRow) (hrow : StatusHistoryRow),
          (upload_disclosure (some name) true (.ok pages) apiKey jparse
            aiResp f db).2.2 = .ok row ∧
          (upload_disclosure (some name) true (.ok pages) apiKey jparse
            aiResp f db).1.history = db.history ++ [hrow] ∧
          hrow.disclosure_id = row.id ∧
          hrow.status = pyOf "pending") ∧
    (∀ (did : Nat) (u : DisclosureUpdate) (db : DbState)
        (row : DisclosureRow) (db2 : DbState) (r : DisclosureRow),
        db.disclosures.find? (fun x => x.id == did) = some row →
        update_disclosure did u db = (db2, .ok r) →
        ((∃ s, u.status = some s ∧ s ≠ row.status ∧
            db2.history = db.history ++
              [{ id := db.nextId, disclosure_id := did, status := s,
                 changed_at := db.now }]) ∨
         ((u.status = none ∨ u.status = some row.status) ∧
            db2.history = db.history))) := by
  constructor
  · intro name pages apiKey jparse aiResp ext f db hn1 hn2 hne hlen hex
      hfd hfi hfh
    rw [upload_disclosure_txn name pages apiKey jparse aiResp ext f db
      hn1 hn2 hne hlen hex]
    rw [uploadTxn_success ext name (get_next_docket_number (db.seq + 1)) f
      { db with seq := db.seq + 1 } hfd hfi hfh]
    exact ⟨createdRow ext name (get_next_docket_number (db.seq + 1))
        f.blobOk db.nextId db.now,
      createdHist db.nextId (db.nextId + 1 + ext.inventors.length) db.now,
      rfl, rfl, rfl, rfl⟩
  · intro did u db row db2 r hfind h2
    simp only [update_disclosure, hfind] at h2
    split at h2
    · simp at h2
    · split at h2
      · simp at h2
      · simp only [Prod.mk.injEq, Except.ok.injEq] at h2
        obtain ⟨hdb2, hr⟩ := h2
        cases hus : u.status with
        | none =>
          right
          refine ⟨Or.inl rfl, ?_⟩
          rw [← hdb2]
          simp [hus]
        | some s =>
          by_cases hse : s = row.status
          · right
            refine ⟨Or.inr (by rw [hse]), ?_⟩
            rw [← hdb2]
            subst hse
            simp [hus]
          · left
            refine ⟨s, rfl, hse, ?_⟩
            rw [← hdb2]
            have hbne : (s != row.status) = true := by
              simp [bne_iff_ne, hse]
            simp [hus, hbne]

/-- C3 witness: a concrete creation leaves exactly one history row, and a
concrete update that changes status `pending → approved` appends exactly
one entry carrying `approved`. -/
theorem status_history_discipline_witness :
    ((upload_disclosure (some (pyOf "a.pdf")) true
        (.ok [List.replicate 60 'x']) true extractorStub (some (pyOf "x"))
        noFault emptyDb).1.history.length = 1) ∧
    ((update_disclosure 1
        { title := none, description := none, key_differences := none,
          status := some (pyOf "approved"), review_notes := none }
        sampleDb).1.history =
      sampleDb.history ++
        [{ id := 2, disclosure_id := 1, status := pyOf "approved",
           changed_at := 5 }]) := by
  constructor
  · obtain ⟨row, hrow, _, hh, _, _⟩ := status_history_discipline.1
      (pyOf "a.pdf") [List.replicate 60 'x'] true extractorStub
      (some (pyOf "x")) extractedStub noFault emptyDb
      (by decide) (by decide) (by decide) (by decide) rfl rfl
      (fun _ => rfl) rfl
    rw [hh]
    rfl
  · have hu := status_history_discipline.2 1
      { title := none, description := none, key_differences := none,
        status := some (pyOf "approved"), review_notes := none }
      sampleDb sampleRow _ _ (by decide) rfl
    rcases hu with ⟨s, hs, _, hh⟩ | ⟨habs, _⟩
    · have hsv : s = pyOf "approved" := by
        injection hs with h
        exact h.symm
      subst hsv
      exact hh
    · rcases habs with h | h
      · exact absurd h (by decide)
      · exact absurd h (by decide)

/-- C2: once the upload reaches the creation transaction, the relational
writes (disclosure row, inventor rows, initial status-history row) are
all-or-nothing: every execution either leaves all three tables exactly as
they were and reports a failure, or appends exactly one disclosure row,
one inventor row per extracted inventor and one history row; and the
failure of any of those writes forces the rolled-back outcome. -/
theorem create_transaction_atomic (name : PyStr) (pages : List PyStr)
    (apiKey : Bool) (jparse : PyStr → Option RawData) (aiResp : Option PyStr)
    (ext : Extracted) (f : UploadFault) (db : DbState)
    (hn1 : name.isEmpty = false)
    (hn2 : pyEndswith (pyOf ".pdf") (pyLower name) = true)
    (hne : (extract_text_from_pdf pages).isEmpty = false)
    (hlen : ¬ (pyStrip (extract_text_from_pdf pages)).length < 50)
    (hex : extract_disclosure_info apiKey jparse aiResp = .ok ext) :
    (((upload_disclosure (some name) true (.ok pages) apiKey jparse aiResp
          f db).1.disclosures = db.disclosures ∧
      (upload_disclosure (some name) true (.ok pages) apiKey jparse aiResp
          f db).1.inventors = db.inventors ∧
      (upload_disclosure (some name) true (.ok pages) apiKey jparse aiResp
          f db).1.history = db.history ∧
      (upload_disclosure (some name) true (.ok pages) apiKey jparse aiResp
          f db).2.2 = .error .dbFailure) ∨
     (∃ (row : DisclosureRow) (invRows : List InventorRow)
        (hrow : StatusHistoryRow),
        (upload_disclosure (some name) true (.ok pages) apiKey jparse aiResp
          f db).2.2 = .ok row ∧
        (upload_disclosure (some name) true (.ok pages) apiKey jparse aiResp
          f db).1.disclosures = db.disclosures ++ [row] ∧
        (upload_disclosure (some name) true (.ok pages) apiKey jparse aiResp
          f db).1.inventors = db.inventors ++ invRows ∧
        invRows.length = ext.inventors.length ∧
        (upload_disclosure (some name) true (.ok pages) apiKey jparse aiResp
          f db).1.history = db.history ++ [hrow] ∧
        hrow.disclosure_id = row.id)) ∧
    ((f.failDisclosureInsert = true ∨ f.failHistoryInsert = true ∨
        (∃ i, i < ext.inventors.length ∧ f.failInventorInsert i = true)) →
      ((upload_disclosure (some name) true (.ok pages) apiKey jparse aiResp
          f db).1.disclosures = db.disclosures ∧
       (upload_disclosure (some name) true (.ok pages) apiKey jparse aiResp
          f db).1.inventors = db.inventors ∧
       (upload_disclosure (some name) true (.ok pages) apiKey jparse aiResp
          f db).1.history = db.history ∧
       (upload_disclosure (some name) true (.ok pages) apiKey jparse aiResp
          f db).2.2 = .error .dbFailure)) := by
  rw [upload_disclosure_txn name pages apiKey jparse aiResp ext f db
    hn1 hn2 hne hlen hex]
  rcases hloop : invInsertLoop f.failInventorInsert db.nextId db.now
    (db.nextId + 1) 0 ext.inventors with ⟨rows, evs, ok⟩
  constructor
  · cases hfd : f.failDisclosureInsert
    · cases hok : ok
      · -- inventor loop failed: rollback
        left
        simp [uploadTxn, hfd, hloop, hok]
      · cases hfh : f.failHistoryInsert
        · -- full success
          right
          have hrows : rows.length = ext.inventors.length := by
            have := invInsertLoop_ok_length f.failInventorInsert db.nextId
              db.now ext.inventors (db.nextId + 1) 0
            rw [hloop] at this
            exact this (by rw [hok])
          refine ⟨createdRow ext name (get_next_docket_number (db.seq + 1))
              f.blobOk db.nextId db.now, rows,
            createdHist db.nextId (db.nextId + 1 + rows.length) db.now,
            ?_, ?_, ?_, hrows, ?_, rfl⟩ <;>
            cases hb : f.blobOk <;>
              simp [uploadTxn, hfd, hloop, hok, hfh, hb, createdRow,
                createdHist]
        · -- history insert failed: rollback
          left
          simp [uploadTxn, hfd, hloop, hok, hfh]
    · left
      simp [uploadTxn, hfd]
  · intro hfail
    cases hfd : f.failDisclosureInsert
    · cases hok : ok
      · simp [uploadTxn, hfd, hloop, hok]
      · cases hfh : f.failHistoryInsert
        · exfalso
          rcases hfail with h | h | ⟨i, hi, hfi⟩
          · rw [hfd] at h; exact Bool.false_ne_true h
          · rw [hfh] at h; exact Bool.false_ne_true h
          · have := invInsertLoop_ok_no_fail f.failInventorInsert db.nextId
              db.now ext.inventors (db.nextId + 1) 0
            rw [hloop] at this
            have hz := this (by rw [hok]) i hi
            rw [Nat.zero_add] at hz
            rw [hz] at hfi
            exact Bool.false_ne_true hfi
        · simp [uploadTxn, hfd, hloop, hok, hfh]
    · simp [uploadTxn, hfd]

/-- C2 witness: with the history insert failing, the concrete upload rolls
back — tables unchanged and a database failure reported. -/
theorem create_transaction_atomic_witness :
    ((upload_disclosure (some (pyOf "a.pdf")) true
        (.ok [List.replicate 60 'x']) true extractorStub (some (pyOf "x"))
        { blobOk := true, failDisclosureInsert := false,
          failInventorInsert := fun _ => false, failHistoryInsert := true }
        emptyDb).1.history = emptyDb.history) ∧
    ((upload_disclosure (some (pyOf "a.pdf")) true
        (.ok [List.replicate 60 'x']) true extractorStub (some (pyOf "x"))
        { blobOk := true, failDisclosureInsert := false,
          failInventorInsert := fun _ => false, failHistoryInsert := true }
        emptyDb).2.2 = .error .dbFailure) := by
  have h := (create_transaction_atomic (pyOf "a.pdf")
    [List.replicate 60 'x'] true extractorStub (some (pyOf "x"))
    extractedStub
    { blobOk := true, failDisclosureInsert := false,
      failInventorInsert := fun _ => false, failHistoryInsert := true }
    emptyDb (by decide) (by decide) (by decide) (by decide) rfl).2
    (Or.inr (Or.inl rfl))
  exact ⟨h.2.2.1, h.2.2.2⟩

/-- C1 counterexample: on a concrete successful upload, the blob-attachment
event sits at position 3 of the trace — inside the transaction, between the
disclosure-row insert (position 2) and the inventor insert (position 5),
with the commit last (position 7) — so the blob attachment does *not* run
only after the transaction has committed. -/
theorem blob_attach_after_commit_counterexample :
    (upload_disclosure (some (pyOf "a.pdf")) true
        (.ok [List.replicate 60 'x']) true extractorStub (some (pyOf "x"))
        noFault emptyDb).2.1 =
      [Ev.seqAdvance, Ev.beginTxn, Ev.insertDisclosure, Ev.blobPut true,
       Ev.setPdfKey, Ev.insertInventor 0, Ev.insertHistory, Ev.commit] ∧
    blobRunsOnlyAfterCommit
      (upload_disclosure (some (pyOf "a.pdf")) true
        (.ok [List.replicate 60 'x']) true extractorStub (some (pyOf "x"))
        noFault emptyDb).2.1 = false := by
  exact ⟨by decide, by decide⟩

/-- C1 (amended): the blob attachment runs *inside* the disclosure-creation
transaction — immediately after the disclosure-row insert and before the
inventor inserts, the status-history insert and the commit; a failure of
the blob write is caught and logged, leaves `pdf_object_key` null, and the
creation is still reported as successful. -/
theorem blob_attach_inside_transaction (name : PyStr) (pages : List PyStr)
    (apiKey : Bool) (jparse : PyStr → Option RawData) (aiResp : Option PyStr)
    (ext : Extracted) (f : UploadFault) (db : DbState)
    (hn1 : name.isEmpty = false)
    (hn2 : pyEndswith (pyOf ".pdf") (pyLower name) = true)
    (hne : (extract_text_from_pdf pages).isEmpty = false)
    (hlen : ¬ (pyStrip (extract_text_from_pdf pages)).length < 50)
    (hex : extract_disclosure_info apiKey jparse aiResp = .ok ext)
    (hfd : f.failDisclosureInsert = false)
    (hfi : ∀ i, f.failInventorInsert i = false)
    (hfh : f.failHistoryInsert = false) :
    (upload_disclosure (some name) true (.ok pages) apiKey jparse aiResp
        f db).2.1 =
      Ev.seqAdvance :: Ev.beginTxn :: Ev.insertDisclosure ::
        Ev.blobPut f.blobOk ::
        ((if f.blobOk then [Ev.setPdfKey] else []) ++
          (List.range' 0 ext.inventors.length).map Ev.insertInventor ++
          [Ev.insertHistory, Ev.commit]) ∧
    ∃ row : DisclosureRow,
      (upload_disclosure (some name) true (.ok pages) apiKey jparse aiResp
          f db).2.2 = .ok row ∧
      row.pdf_object_key =
        (if f.blobOk then some (upload_pdf_object_key db.nextId name)
         else none) ∧
      (upload_disclosure (some name) true (.ok pages) apiKey jparse aiResp
          f db).1.disclosures = db.disclosures ++ [row] := by
  rw [upload_disclosure_txn name pages apiKey jparse aiResp ext f db
    hn1 hn2 hne hlen hex]
  rw [uploadTxn_success ext name (get_next_docket_number (db.seq + 1)) f
    { db with seq := db.seq + 1 } hfd hfi hfh]
  refine ⟨?_, createdRow ext name (get_next_docket_number (db.seq + 1))
    f.blobOk db.nextId db.now, rfl, ?_, rfl⟩
  · simp [uploadTrace]
  · cases hb : f.blobOk <;> simp [createdRow, hb]

/-- C1 (amended) witness: a concrete upload whose blob write fails still
succeeds, emits the blob event inside the transaction, and stores a null
`pdf_object_key`. -/
theorem blob_attach_inside_transaction_witness :
    ((upload_disclosure (some (pyOf "a.pdf")) true
        (.ok [List.replicate 60 'x']) true extractorStub (some (pyOf "x"))
        { blobOk := false, failDisclosureInsert := false,
          failInventorInsert := fun _ => false, failHistoryInsert := false }
        emptyDb).2.1 =
      Ev.seqAdvance :: Ev.beginTxn :: Ev.insertDisclosure ::
        Ev.blobPut false ::
        ((if false then [Ev.setPdfKey] else []) ++
          (List.range' 0 (1 : Nat)).map Ev.insertInventor ++
          [Ev.insertHistory, Ev.commit])) ∧
    (∃ row : DisclosureRow,
      (upload_disclosure (some (pyOf "a.pdf")) true
          (.ok [List.replicate 60 'x']) true extractorStub (some (pyOf "x"))
          { blobOk := false, failDisclosureInsert := false,
            failInventorInsert := fun _ => false,
            failHistoryInsert := false }
          emptyDb).2.2 = .ok row ∧
      row.pdf_object_key = none) := by
  have h := blob_attach_inside_transaction (pyOf "a.pdf")
    [List.replicate 60 'x'] true extractorStub (some (pyOf "x"))
    extractedStub
    { blobOk := false, failDisclosureInsert := false,
      failInventorInsert := fun _ => false, failHistoryInsert := false }
    emptyDb (by decide) (by decide) (by decide) (by decide) rfl rfl
    (fun _ => rfl) rfl
  obtain ⟨htrace, row, hok, hkey, _⟩ := h
  exact ⟨htrace, row, hok, hkey⟩

/-- C8 witness: the five-digit counter value 12345 widens the field — the
digit block is exactly the decimal rendering of 12345. -/
theorem docket_number_format_witness :
    10000 ≤ 12345 ∧
    (∃ ds : PyStr, get_next_docket_number 12345 = pyOf "IDF-" ++ ds ∧
      ds = natToDigits 12345 ∧ digitsVal ds = 12345) := by
  obtain ⟨ds, h1, _, _, h4, _, h6, _⟩ := docket_number_format 12345
  exact ⟨by decide, ds, h1, h6 (by decide), h4⟩

end Disclosures
